import Mathlib

/-!
Verification development for the Tsunami Super WAV Trigger sample generator.

The definitions below are a shallow embedding of `main.py` (the bank-aware
generator); the legacy `waves.py` only shares the pitch formula.  Machine
floating point is idealised: configuration fractions and envelope values are
exact rationals, signal samples are real numbers.
-/

namespace Tsunami

/- ===== User-tweakable settings (`main.py` module constants) ===== -/

def SAMPLE_RATE : ℕ := 44100

def DURATION_SECONDS : ℚ := 1

def MASTER_GAIN : ℚ := 3 / 10

def PLAYBACK_SUFFIX : String := "_S1"

def BIT_DEPTH_SUBTYPE : String := "PCM_16"

def WAVEFORMS_IN_BANK_ORDER : List String := ["sine", "triangle", "saw", "square"]

/- ===== Python string primitives used by the script ===== -/

/-- Python `str.zfill(width)`: left-pad with zeros up to `width`; a leading
sign character stays in front of the padding. -/
def zfill (s : String) (width : ℕ) : String :=
  if width ≤ s.length then s
  else
    let pad := List.replicate (width - s.length) '0'
    match s.data with
    | [] => String.mk pad
    | c :: cs =>
        if c = '-' ∨ c = '+' then String.mk (c :: (pad ++ cs))
        else String.mk (pad ++ (c :: cs))

/-- Python `str.capitalize()`: first character uppercased, the rest
lowercased. -/
def py_capitalize (s : String) : String :=
  match s.data with
  | [] => ""
  | c :: cs => String.mk (c.toUpper :: cs.map Char.toLower)

/- ===== Note mapper ===== -/

def NOTE_NAMES : List String :=
  ["C", "C#", "D", "D#", "E", "F"] ++ ["F#", "G", "G#", "A", "A#", "B"]

/-- Model of `midi_note_to_name` from `main.py`.  Python `%` and `//` on a positive
modulus are the Euclidean `%` and `/` of `ℤ`. -/
def midi_note_to_name (midi_note : ℤ) : String :=
  let pitch_class := midi_note % 12
  let octave := midi_note / 12 - 1
  NOTE_NAMES.getD pitch_class.toNat "" ++ toString octave

/- ===== Track numbers and filenames ===== -/

/-- Model of `track_number_for` from `main.py`. -/
def track_number_for (bank_index : ℕ) (midi_note : ℕ) : ℕ :=
  bank_index * 128 + midi_note + 1

/-- Model of `filename_for` from `main.py`:
`f"{track_str}{PLAYBACK_SUFFIX} {waveform_label}_{note_name}.wav"`. -/
def filename_for (track_number : ℕ) (note_name : String) (waveform_label : String) : String :=
  let track_str := zfill (toString track_number) 4
  track_str ++ PLAYBACK_SUFFIX ++ " " ++ waveform_label ++ "_" ++ note_name ++ ".wav"

/-- The filename `generate_bank`/`main` emit for a given bank index and MIDI
note under the default configuration (label = capitalized configured
waveform name). -/
def bank_filename (bank_index : ℕ) (midi_note : ℕ) : String :=
  filename_for (track_number_for bank_index midi_note)
    (midi_note_to_name (midi_note : ℤ))
    (py_capitalize (WAVEFORMS_IN_BANK_ORDER.getD bank_index ""))

/-- Numeric value of a decimal digit character. -/
def digitVal (c : Char) : ℕ := c.toNat - 48

/-- Reads the leading 4-digit zero-padded track number back out of a
generated filename. -/
def parseTrack (s : String) : ℕ :=
  (s.data.take 4).foldl (fun a c => 10 * a + digitVal c) 0

/- ===== Envelope ===== -/

/-- Python `int(x)` on the nonnegative values it is applied to here
(truncation = floor on nonnegative input; the `max 1` callers make the
difference on negative input invisible as well). -/
def pyInt (q : ℚ) : ℕ := (⌊q⌋).toNat

/-- Entry `j` of `np.linspace(a, b, n, endpoint=True)`; for `n = 1` numpy
returns `[a]`. -/
def linspace_val (a b : ℚ) (n : ℕ) (j : ℕ) : ℚ :=
  if n ≤ 1 then a else a + (b - a) * j / ((n : ℚ) - 1)

/-- Model of `fade_len = max(1, int(num_samples * fade_fraction))` from
`simple_fade_envelope` in `main.py`. -/
def fade_len (num_samples : ℕ) (fade_fraction : ℚ) : ℕ :=
  max 1 (pyInt ((num_samples : ℚ) * fade_fraction))

/-- Entry `i` of `simple_fade_envelope(num_samples, fade_fraction)` from
`main.py`: an all-ones vector whose first `fade_len` entries are multiplied
by a linear fade-in `np.linspace(0,1,fade_len)` and whose last `fade_len`
entries are multiplied by a linear fade-out `np.linspace(1,0,fade_len)`. -/
def simple_fade_envelope (num_samples : ℕ) (fade_fraction : ℚ) (i : ℕ) : ℚ :=
  let fl := fade_len num_samples fade_fraction
  let v : ℚ := if i < fl then 1 * linspace_val 0 1 fl i else 1
  if num_samples - fl ≤ i ∧ i < num_samples then
    v * linspace_val 1 0 fl (i - (num_samples - fl))
  else v

/-- Model of `num_samples = int(sample_rate * duration_sec)` from `generate_waveform`. -/
def numSamples (sample_rate : ℕ) (duration_sec : ℚ) : ℕ :=
  pyInt ((sample_rate : ℚ) * duration_sec)

/- ===== Waveform synthesis (real-valued idealisation) ===== -/

/-- Model of `midi_note_to_frequency` (`main.py`; `waves.py` has the same formula):
`440.0 * (2.0 ** ((midi_note - 69) / 12.0))`. -/
noncomputable def midi_note_to_frequency (midi_note : ℤ) : ℝ :=
  440 * (2 : ℝ) ^ (((midi_note : ℝ) - 69) / 12)

/-- Model of `gen_sine` from `main.py` (the frequency argument is ignored, as in the
source). -/
noncomputable def gen_sine (phase : ℝ) (_freq : ℝ) : ℝ := Real.sin phase

/-- Model of `scipy.signal.sawtooth(t, width)`: with `tmod = t mod 2π`, the value is
`tmod / (π·width) - 1` on `[0, width·2π)` and
`(π·(width+1) - tmod) / (π·(1-width))` on `[width·2π, 2π)`. -/
noncomputable def scipy_sawtooth (t : ℝ) (width : ℝ) : ℝ :=
  let tmod := 2 * Real.pi * Int.fract (t / (2 * Real.pi))
  if tmod < width * (2 * Real.pi) then tmod / (Real.pi * width) - 1
  else (Real.pi * (width + 1) - tmod) / (Real.pi * (1 - width))

/-- Model of `gen_triangle` from `main.py`: `signal.sawtooth(phase, width=0.5)`. -/
noncomputable def gen_triangle (phase : ℝ) (_freq : ℝ) : ℝ :=
  scipy_sawtooth phase (1 / 2)

/-- Model of `gen_saw` from `main.py`: `signal.sawtooth(phase)` (default width 1). -/
noncomputable def gen_saw (phase : ℝ) (_freq : ℝ) : ℝ := scipy_sawtooth phase 1

/-- Model of `scipy.signal.square(t, duty)`: `1` where `t mod 2π < duty·2π`, else `-1`. -/
noncomputable def scipy_square (t : ℝ) (duty : ℝ) : ℝ :=
  if 2 * Real.pi * Int.fract (t / (2 * Real.pi)) < duty * (2 * Real.pi) then 1 else -1

/-- Model of `gen_square` from `main.py`: `signal.square(phase)` (default duty 0.5). -/
noncomputable def gen_square (phase : ℝ) (_freq : ℝ) : ℝ := scipy_square phase (1 / 2)

/-- The `WAVEFORM_GENERATORS` dict from `main.py`; `none` models the
`KeyError` raised by an absent key. -/
noncomputable def WAVEFORM_GENERATORS (name : String) : Option (ℝ → ℝ → ℝ) :=
  if name = "sine" then some gen_sine
  else if name = "triangle" then some gen_triangle
  else if name = "saw" then some gen_saw
  else if name = "square" then some gen_square
  else none

/-- Sample `i` of the buffer built inside `generate_waveform` for a given
generator `g`: `raw * env * MASTER_GAIN`, then `np.clip(out, -1.0, 1.0)`. -/
noncomputable def gw_buffer (g : ℝ → ℝ → ℝ) (midi_note : ℤ) (sample_rate : ℕ)
    (duration_sec : ℚ) (i : ℕ) : ℝ :=
  let num_samples := numSamples sample_rate duration_sec
  let freq := midi_note_to_frequency midi_note
  let t : ℝ := (i : ℝ) / (sample_rate : ℝ)
  let phase := 2 * Real.pi * freq * t
  let raw := g phase freq
  let env : ℝ := ((simple_fade_envelope num_samples (1 / 100) i : ℚ) : ℝ)
  let out := raw * env * ((MASTER_GAIN : ℚ) : ℝ)
  min 1 (max (-1) out)

/-- Model of `generate_waveform` from `main.py`: dictionary dispatch (a `KeyError`
becomes `none`), then synthesis, anti-click envelope, master gain, clamp. -/
noncomputable def generate_waveform (waveform_name : String) (midi_note : ℤ)
    (sample_rate : ℕ) (duration_sec : ℚ) : Option (ℕ → ℝ) :=
  (WAVEFORM_GENERATORS waveform_name).map fun g =>
    gw_buffer g midi_note sample_rate duration_sec

/- ===== Bank iteration and file emission (`generate_bank`, `main`) ===== -/

/-- One call of `sf.write` in `generate_bank`: the path, the written buffer,
its declared length, channel count (a 1-D buffer is mono) and PCM subtype,
tagged with the bank that produced it. -/
structure WrittenFile where
  bank : ℕ
  filename : String
  buffer : ℕ → ℝ
  num_samples : ℕ
  channels : ℕ
  subtype : String

/-- Collects a list of optional results, failing at the first `none`
(a raised exception aborts the whole run). -/
def optList {α : Type} : List (Option α) → Option (List α)
  | [] => some []
  | none :: _ => none
  | some a :: rest => (optList rest).map (fun l => a :: l)

/-- Model of `generate_bank` from `main.py`: for each MIDI note `0..127`, synthesize
the waveform and write one file named by `filename_for` with the capitalized
waveform name as label. -/
noncomputable def generate_bank (bank_index : ℕ) (waveform_name : String) :
    Option (List WrittenFile) :=
  optList ((List.range 128).map fun (midi_note : ℕ) =>
    (generate_waveform waveform_name (midi_note : ℤ) SAMPLE_RATE DURATION_SECONDS).map
      fun buf =>
        { bank := bank_index
          filename := filename_for (track_number_for bank_index midi_note)
            (midi_note_to_name (midi_note : ℤ)) (py_capitalize waveform_name)
          buffer := buf
          num_samples := numSamples SAMPLE_RATE DURATION_SECONDS
          channels := 1
          subtype := BIT_DEPTH_SUBTYPE })

/-- Model of `main` from `main.py`: enumerate the banks in order and run
`generate_bank` on each; the result is the full list of written files. -/
noncomputable def main_files : Option (List WrittenFile) :=
  (optList (WAVEFORMS_IN_BANK_ORDER.enum.map fun p => generate_bank p.1 p.2)).map
    List.flatten

/-- The file `main` writes for bank `p.1` (waveform `p.2`) and MIDI note
`midi_note`, written out explicitly. -/
noncomputable def written_file (bank_index : ℕ) (waveform_name : String)
    (midi_note : ℕ) : WrittenFile :=
  { bank := bank_index
    filename := filename_for (track_number_for bank_index midi_note)
      (midi_note_to_name (midi_note : ℤ)) (py_capitalize waveform_name)
    buffer := gw_buffer ((WAVEFORM_GENERATORS waveform_name).getD (fun _ _ => 0))
      (midi_note : ℤ) SAMPLE_RATE DURATION_SECONDS
    num_samples := numSamples SAMPLE_RATE DURATION_SECONDS
    channels := 1
    subtype := BIT_DEPTH_SUBTYPE }

/-- The full list of 512 files `main` writes under the default
configuration. -/
noncomputable def main_files_list : List WrittenFile :=
  (WAVEFORMS_IN_BANK_ORDER.enum.map fun p =>
    (List.range 128).map (written_file p.1 p.2)).flatten

/- ===== Helper lemmas ===== -/

lemma numSamples_default : numSamples 44100 1 = 44100 := by
  have h : ((44100 : ℕ) : ℚ) * 1 = ((44100 : ℤ) : ℚ) := by norm_num
  rw [numSamples, pyInt, h, Int.floor_intCast]
  rfl

lemma fade_len_default : fade_len 44100 (1 / 100) = 441 := by
  have h : ((44100 : ℕ) : ℚ) * (1 / 100) = ((441 : ℤ) : ℚ) := by norm_num
  rw [fade_len, pyInt, h, Int.floor_intCast]
  rfl

lemma tmod_nonneg (t : ℝ) : 0 ≤ 2 * Real.pi * Int.fract (t / (2 * Real.pi)) :=
  mul_nonneg (by positivity) (Int.fract_nonneg _)

lemma tmod_lt (t : ℝ) : 2 * Real.pi * Int.fract (t / (2 * Real.pi)) < 2 * Real.pi := by
  have h := Int.fract_lt_one (t / (2 * Real.pi))
  nlinarith [Real.pi_pos]

lemma scipy_sawtooth_bounds (t width : ℝ) (hw0 : 0 < width) (_hw1 : width ≤ 1) :
    -1 ≤ scipy_sawtooth t width ∧ scipy_sawtooth t width ≤ 1 := by
  have h0 := tmod_nonneg t
  have h2 := tmod_lt t
  have hpi := Real.pi_pos
  simp only [scipy_sawtooth]
  split_ifs with h
  · constructor
    · have hq : 0 ≤ 2 * Real.pi * Int.fract (t / (2 * Real.pi)) / (Real.pi * width) :=
        div_nonneg h0 (by positivity)
      linarith
    · have hlt : 2 * Real.pi * Int.fract (t / (2 * Real.pi)) / (Real.pi * width) < 2 := by
        rw [div_lt_iff₀ (by positivity)]
        nlinarith
      linarith
  · push_neg at h
    have hwlt : width < 1 := by nlinarith
    have hden : 0 < Real.pi * (1 - width) := by nlinarith
    constructor
    · rw [le_div_iff₀ hden]
      nlinarith
    · rw [div_le_one hden]
      nlinarith

lemma scipy_square_bounds (t duty : ℝ) :
    -1 ≤ scipy_square t duty ∧ scipy_square t duty ≤ 1 := by
  simp only [scipy_square]
  split_ifs <;> norm_num

/-- Every generator the dict can return is bounded by `[-1, 1]`. -/
lemma generators_bounded (name : String) (g : ℝ → ℝ → ℝ)
    (hg : WAVEFORM_GENERATORS name = some g) :
    ∀ p f, -1 ≤ g p f ∧ g p f ≤ 1 := by
  simp only [WAVEFORM_GENERATORS] at hg
  split_ifs at hg <;> simp_all only [Option.some.injEq]
  · subst hg
    exact fun p f => ⟨Real.neg_one_le_sin p, Real.sin_le_one p⟩
  · subst hg
    exact fun p f => scipy_sawtooth_bounds p (1 / 2) (by norm_num) (by norm_num)
  · subst hg
    exact fun p f => scipy_sawtooth_bounds p 1 (by norm_num) (by norm_num)
  · subst hg
    exact fun p f => scipy_square_bounds p (1 / 2)

lemma linspace01_mem (n j : ℕ) (h : j < n) :
    0 ≤ linspace_val 0 1 n j ∧ linspace_val 0 1 n j ≤ 1 := by
  unfold linspace_val
  split_ifs with hn
  · norm_num
  · push_neg at hn
    have hval : (0 : ℚ) + (1 - 0) * j / ((n : ℚ) - 1) = (j : ℚ) / ((n : ℚ) - 1) := by ring
    have hj : (j : ℚ) + 1 ≤ (n : ℚ) := by exact_mod_cast h
    have hd : (0 : ℚ) < (n : ℚ) - 1 := by
      have hh : (1 : ℚ) < (n : ℚ) := by exact_mod_cast hn
      linarith
    rw [hval]
    constructor
    · exact div_nonneg (Nat.cast_nonneg j) hd.le
    · rw [div_le_one hd]
      linarith

lemma linspace10_mem (n j : ℕ) (h : j < n) :
    0 ≤ linspace_val 1 0 n j ∧ linspace_val 1 0 n j ≤ 1 := by
  unfold linspace_val
  split_ifs with hn
  · norm_num
  · push_neg at hn
    have hval : (1 : ℚ) + (0 - 1) * j / ((n : ℚ) - 1) = 1 - (j : ℚ) / ((n : ℚ) - 1) := by ring
    have hj : (j : ℚ) + 1 ≤ (n : ℚ) := by exact_mod_cast h
    have hd : (0 : ℚ) < (n : ℚ) - 1 := by
      have hh : (1 : ℚ) < (n : ℚ) := by exact_mod_cast hn
      linarith
    have hq1 : 0 ≤ (j : ℚ) / ((n : ℚ) - 1) := div_nonneg (Nat.cast_nonneg j) hd.le
    have hq2 : (j : ℚ) / ((n : ℚ) - 1) ≤ 1 := by
      rw [div_le_one hd]
      linarith
    rw [hval]
    constructor <;> linarith

/-- Definitional unfolding of `simple_fade_envelope`. -/
lemma simple_fade_envelope_eq (ns : ℕ) (frac : ℚ) (i : ℕ) :
    simple_fade_envelope ns frac i =
      if ns - fade_len ns frac ≤ i ∧ i < ns then
        (if i < fade_len ns frac then 1 * linspace_val 0 1 (fade_len ns frac) i else 1) *
          linspace_val 1 0 (fade_len ns frac) (i - (ns - fade_len ns frac))
      else if i < fade_len ns frac then 1 * linspace_val 0 1 (fade_len ns frac) i else 1 :=
  rfl

/-- The fade envelope always lies in `[0, 1]`. -/
lemma env_mem (ns : ℕ) (frac : ℚ) (i : ℕ) :
    0 ≤ simple_fade_envelope ns frac i ∧ simple_fade_envelope ns frac i ≤ 1 := by
  have hfl1 : 1 ≤ fade_len ns frac := le_max_left 1 _
  simp only [simple_fade_envelope]
  split_ifs with h2 h1 h1
  · have hin := linspace01_mem (fade_len ns frac) i h1
    have hout := linspace10_mem (fade_len ns frac) (i - (ns - fade_len ns frac)) (by omega)
    constructor
    · have := mul_nonneg (mul_nonneg zero_le_one hin.1) hout.1
      simpa using this
    · have := mul_le_one₀ (by simpa using hin.2) hout.1 hout.2
      simpa using this
  · have hout := linspace10_mem (fade_len ns frac) (i - (ns - fade_len ns frac)) (by omega)
    constructor
    · simpa using hout.1
    · simpa using hout.2
  · have hin := linspace01_mem (fade_len ns frac) i h1
    constructor
    · simpa using hin.1
    · simpa using hin.2
  · norm_num

/-- Model of `np.clip(x, -1, 1)` is the identity on `[-1, 1]`. -/
lemma clip_eq_self {x : ℝ} (h1 : -1 ≤ x) (h2 : x ≤ 1) : min 1 (max (-1) x) = x := by
  rw [max_eq_right h1, min_eq_right h2]

lemma clipped_out_bounds (raw env gain : ℝ) (hr1 : -1 ≤ raw) (hr2 : raw ≤ 1)
    (he1 : 0 ≤ env) (he2 : env ≤ 1) (hg1 : 0 ≤ gain) (hg2 : gain ≤ 1) :
    |min 1 (max (-1) (raw * env * gain))| ≤ gain ∧
      -1 ≤ min 1 (max (-1) (raw * env * gain)) ∧
      min 1 (max (-1) (raw * env * gain)) ≤ 1 := by
  have habs : |raw * env * gain| ≤ gain := by
    rw [abs_mul, abs_mul, abs_of_nonneg he1, abs_of_nonneg hg1]
    have h1 : |raw| ≤ 1 := abs_le.mpr ⟨hr1, hr2⟩
    have s1 : |raw| * env ≤ env := by nlinarith [abs_nonneg raw]
    have s2 : |raw| * env * gain ≤ env * gain := mul_le_mul_of_nonneg_right s1 hg1
    have s3 : env * gain ≤ gain := by nlinarith
    linarith
  have hb := abs_le.mp (habs.trans hg2)
  rw [clip_eq_self hb.1 hb.2]
  exact ⟨habs, hb.1, hb.2⟩

lemma master_gain_mem : (0 : ℝ) ≤ ((MASTER_GAIN : ℚ) : ℝ) ∧ ((MASTER_GAIN : ℚ) : ℝ) ≤ 1 := by
  rw [MASTER_GAIN]
  norm_num

/-- Every sample any in-range generator can produce through
`generate_waveform` is gain-bounded and clamped. -/
lemma gw_buffer_bounds (g : ℝ → ℝ → ℝ) (hg : ∀ p f, -1 ≤ g p f ∧ g p f ≤ 1)
    (midi_note : ℤ) (sample_rate : ℕ) (duration_sec : ℚ) (i : ℕ) :
    |gw_buffer g midi_note sample_rate duration_sec i| ≤ ((MASTER_GAIN : ℚ) : ℝ) ∧
      -1 ≤ gw_buffer g midi_note sample_rate duration_sec i ∧
      gw_buffer g midi_note sample_rate duration_sec i ≤ 1 := by
  simp only [gw_buffer]
  have henv := env_mem (numSamples sample_rate duration_sec) (1 / 100) i
  have he1 : (0 : ℝ) ≤ ((simple_fade_envelope (numSamples sample_rate duration_sec) (1 / 100) i : ℚ) : ℝ) := by
    exact_mod_cast henv.1
  have he2 : ((simple_fade_envelope (numSamples sample_rate duration_sec) (1 / 100) i : ℚ) : ℝ) ≤ 1 := by
    exact_mod_cast henv.2
  have hr := hg (2 * Real.pi * midi_note_to_frequency midi_note * ((i : ℝ) / (sample_rate : ℝ)))
    (midi_note_to_frequency midi_note)
  exact clipped_out_bounds _ _ _ hr.1 hr.2 he1 he2 master_gain_mem.1 master_gain_mem.2

/-- Definitional unfolding of `gw_buffer`. -/
lemma gw_buffer_eq (g : ℝ → ℝ → ℝ) (midi_note : ℤ) (sample_rate : ℕ)
    (duration_sec : ℚ) (i : ℕ) :
    gw_buffer g midi_note sample_rate duration_sec i =
      min 1 (max (-1)
        (g (2 * Real.pi * midi_note_to_frequency midi_note * ((i : ℝ) / (sample_rate : ℝ)))
            (midi_note_to_frequency midi_note) *
          ((simple_fade_envelope (numSamples sample_rate duration_sec) (1 / 100) i : ℚ) : ℝ) *
          ((MASTER_GAIN : ℚ) : ℝ))) :=
  rfl

/-- A successful `generate_waveform` call is the clamped pipeline applied to
the generator the dict returned. -/
lemma generate_waveform_some (name : String) (midi_note : ℤ) (sample_rate : ℕ)
    (duration_sec : ℚ) (buf : ℕ → ℝ)
    (h : generate_waveform name midi_note sample_rate duration_sec = some buf) :
    ∃ g, WAVEFORM_GENERATORS name = some g ∧
      buf = gw_buffer g midi_note sample_rate duration_sec := by
  rw [generate_waveform] at h
  cases hdict : WAVEFORM_GENERATORS name with
  | none =>
      rw [hdict] at h
      exact absurd h (by simp)
  | some g =>
      rw [hdict] at h
      simp only [Option.map_some'] at h
      exact ⟨g, rfl, (Option.some.inj h).symm⟩

lemma env_default_ramp_in (i : ℕ) (h : i < 441) :
    simple_fade_envelope 44100 (1 / 100) i = (i : ℚ) / 440 := by
  rw [simple_fade_envelope_eq, fade_len_default]
  rw [if_neg (by omega), if_pos h]
  unfold linspace_val
  rw [if_neg (by omega)]
  push_cast
  norm_num

lemma env_default_mid (i : ℕ) (h1 : 441 ≤ i) (h2 : i < 43659) :
    simple_fade_envelope 44100 (1 / 100) i = 1 := by
  rw [simple_fade_envelope_eq, fade_len_default]
  rw [if_neg (by omega), if_neg (by omega)]

lemma env_default_ramp_out (i : ℕ) (h1 : 43659 ≤ i) (h2 : i < 44100) :
    simple_fade_envelope 44100 (1 / 100) i = 1 - ((i : ℚ) - 43659) / 440 := by
  rw [simple_fade_envelope_eq, fade_len_default]
  rw [if_pos (by omega), if_neg (by omega)]
  have hs : (44100 : ℕ) - 441 = 43659 := by norm_num
  rw [hs]
  unfold linspace_val
  rw [if_neg (by omega)]
  have hc : ((i - 43659 : ℕ) : ℚ) = (i : ℚ) - 43659 := by
    push_cast [h1]
    ring
  rw [hc]
  push_cast
  ring_nf

/- ===== Claim theorems ===== -/

/-- C2: `track_number_for(bank_index, midi_note) = bank_index*128 + midi_note + 1`;
restricted to banks `0..3` and notes `0..127` it is injective and onto
`{1..512}`, with `track_number_for 0 0 = 1`, `track_number_for 3 127 = 512`,
and for each fixed bank it is strictly increasing in the MIDI note. -/
theorem track_number_mapping :
    (∀ bank_index midi_note : ℕ,
      track_number_for bank_index midi_note = bank_index * 128 + midi_note + 1) ∧
    (∀ b1 n1 b2 n2 : ℕ, b1 < 4 → n1 < 128 → b2 < 4 → n2 < 128 →
      track_number_for b1 n1 = track_number_for b2 n2 → b1 = b2 ∧ n1 = n2) ∧
    (∀ t : ℕ, 1 ≤ t → t ≤ 512 →
      ∃ b n, b < 4 ∧ n < 128 ∧ track_number_for b n = t) ∧
    track_number_for 0 0 = 1 ∧
    track_number_for 3 127 = 512 ∧
    (∀ b n1 n2 : ℕ, n1 < n2 → track_number_for b n1 < track_number_for b n2) := by
  refine ⟨fun b n => rfl, ?_, ?_, rfl, rfl, ?_⟩
  · intro b1 n1 b2 n2 hb1 hn1 hb2 hn2 h
    unfold track_number_for at h
    omega
  · intro t ht1 ht2
    refine ⟨(t - 1) / 128, (t - 1) % 128, by omega, by omega, ?_⟩
    unfold track_number_for
    omega
  · intro b n1 n2 h
    unfold track_number_for
    omega

theorem track_number_mapping_witness :
    track_number_for 2 5 < track_number_for 2 9 :=
  track_number_mapping.2.2.2.2.2 2 5 9 (by decide)

/-- C6: `midi_note_to_frequency note = 440 * 2 ^ ((note - 69) / 12)` for every
integer note; in particular the frequency of note 69 is exactly 440 and of
note 81 is 880. -/
theorem frequency_formula :
    (∀ note : ℤ,
      midi_note_to_frequency note = 440 * (2 : ℝ) ^ (((note : ℝ) - 69) / 12)) ∧
    midi_note_to_frequency 69 = 440 ∧
    midi_note_to_frequency 81 = 880 := by
  refine ⟨fun note => rfl, ?_, ?_⟩
  · have h : ((((69 : ℤ) : ℝ)) - 69) / 12 = 0 := by norm_num
    rw [midi_note_to_frequency, h, Real.rpow_zero]
    norm_num
  · have h : ((((81 : ℤ) : ℝ)) - 69) / 12 = 1 := by norm_num
    rw [midi_note_to_frequency, h, Real.rpow_one]
    norm_num

/-- C7: `midi_note_to_name` concatenates the name-table entry at index
`note mod 12` (an always-in-range index into the 12-entry table) with the
octave `note div 12 - 1`; examples: 60 ↦ "C4", 69 ↦ "A4", 0 ↦ "C-1". -/
theorem note_name_formula :
    (∀ note : ℤ, (note % 12).toNat < NOTE_NAMES.length ∧
      midi_note_to_name note =
        NOTE_NAMES.getD (note % 12).toNat "" ++ toString (note / 12 - 1)) ∧
    midi_note_to_name 60 = "C4" ∧
    midi_note_to_name 69 = "A4" ∧
    midi_note_to_name 0 = "C-1" := by
  refine ⟨fun note => ⟨?_, rfl⟩, by decide, by decide, by decide⟩
  have h1 : 0 ≤ note % 12 := Int.emod_nonneg note (by norm_num)
  have h2 : note % 12 < 12 := Int.emod_lt_of_pos note (by norm_num)
  have h3 : NOTE_NAMES.length = 12 := rfl
  omega

/-- C8: dispatching on a waveform kind outside the closed enumeration fails
(the lookup raises, modelled by `none`, so no default waveform is ever
substituted), while every kind inside the enumeration synthesizes a buffer. -/
theorem unknown_waveform_fails :
    ∀ (name : String) (midi_note : ℤ) (sample_rate : ℕ) (duration_sec : ℚ),
      (name ∉ WAVEFORMS_IN_BANK_ORDER →
        generate_waveform name midi_note sample_rate duration_sec = none) ∧
      (name ∈ WAVEFORMS_IN_BANK_ORDER →
        ∃ buf, generate_waveform name midi_note sample_rate duration_sec = some buf) := by
  intro name midi_note sample_rate duration_sec
  constructor
  · intro hname
    have hd : WAVEFORM_GENERATORS name = none := by
      unfold WAVEFORM_GENERATORS
      split_ifs with h1 h2 h3 h4
      · exact absurd (by simp [WAVEFORMS_IN_BANK_ORDER, h1]) hname
      · exact absurd (by simp [WAVEFORMS_IN_BANK_ORDER, h2]) hname
      · exact absurd (by simp [WAVEFORMS_IN_BANK_ORDER, h3]) hname
      · exact absurd (by simp [WAVEFORMS_IN_BANK_ORDER, h4]) hname
      · rfl
    rw [generate_waveform, hd]
    rfl
  · intro hname
    simp only [WAVEFORMS_IN_BANK_ORDER, List.mem_cons, List.not_mem_nil, or_false] at hname
    rcases hname with rfl | rfl | rfl | rfl <;> exact ⟨_, rfl⟩

theorem unknown_waveform_fails_witness :
    generate_waveform "noise" 0 44100 1 = none :=
  (unknown_waveform_fails "noise" 0 44100 1).1 (by decide)

/-- C10: when `2 ≤ num_samples` and `int(num_samples * fade_fraction) ≤ 1` at
the default fraction `1/100`, the fade length is 1, the first envelope entry
is 0, but the one-point fade-out `np.linspace(1,0,1) = [1]` leaves the last
entry at full amplitude 1. -/
theorem short_fade_out_stays_full :
    ∀ num_samples : ℕ, 2 ≤ num_samples →
      ⌊(num_samples : ℚ) * (1 / 100)⌋ ≤ 1 →
      simple_fade_envelope num_samples (1 / 100) 0 = 0 ∧
      simple_fade_envelope num_samples (1 / 100) (num_samples - 1) = 1 := by
  intro ns h2 hfl
  have hfl1 : fade_len ns (1 / 100) = 1 := by
    unfold fade_len pyInt
    have h0 : 0 ≤ ⌊(ns : ℚ) * (1 / 100)⌋ := Int.floor_nonneg.mpr (by positivity)
    omega
  constructor
  · rw [simple_fade_envelope_eq, hfl1]
    rw [if_neg (by omega), if_pos (by omega)]
    simp [linspace_val]
  · rw [simple_fade_envelope_eq, hfl1]
    rw [if_pos (by omega), if_neg (by omega)]
    simp [linspace_val]

theorem short_fade_out_stays_full_witness :
    simple_fade_envelope 100 (1 / 100) 0 = 0 ∧
    simple_fade_envelope 100 (1 / 100) 99 = 1 :=
  short_fade_out_stays_full 100 (by norm_num)
    (by
      have h : ((100 : ℕ) : ℚ) * (1 / 100) = ((1 : ℤ) : ℚ) := by norm_num
      rw [h, Int.floor_intCast])

/-- C1 counterexample: the configured waveform kind of bank 2 is the string
"saw", so its files carry the label "Saw", not "Sawtooth": the file for
bank 2, MIDI note 0 is "0257_S1 Saw_C-1.wav", not the "0257_S1
Sawtooth_C-1.wav" the claim predicts. -/
theorem filename_label_counterexample :
    bank_filename 2 0 = "0257_S1 Saw_C-1.wav" ∧
    py_capitalize (WAVEFORMS_IN_BANK_ORDER.getD 2 "") = "Saw" ∧
    bank_filename 2 0 ≠ "0257_S1 Sawtooth_C-1.wav" := by decide

/-- C1 (amended): for every bank of the default configuration and every MIDI
note 0..127, the generated filename is
`"{4-digit zero-padded track}{playback suffix} {Label}_{NoteName}.wav"`
where Label is the configured waveform kind of the bank — one of sine, triangle,
saw, square — with its first letter capitalized; the files of bank 2 carry the
label "Saw". -/
theorem filename_grammar_label :
    ∀ bank_index, bank_index < 4 → ∀ midi_note, midi_note < 128 →
      bank_filename bank_index midi_note =
        zfill (toString (track_number_for bank_index midi_note)) 4 ++ "_S1 " ++
          ["Sine", "Triangle", "Saw", "Square"].getD bank_index "" ++ "_" ++
          midi_note_to_name (midi_note : ℤ) ++ ".wav" := by decide

theorem filename_grammar_label_witness :
    bank_filename 2 0 =
      zfill (toString (track_number_for 2 0)) 4 ++ "_S1 " ++
        ["Sine", "Triangle", "Saw", "Square"].getD 2 "" ++ "_" ++
        midi_note_to_name ((0 : ℕ) : ℤ) ++ ".wav" :=
  filename_grammar_label 2 (by decide) 0 (by decide)

/-- C5: distinct (bank, MIDI note) pairs in `{0..3} × {0..127}` always get
distinct filenames (within a bank and across all four banks). -/
theorem filenames_distinct :
    ∀ b1 n1 b2 n2 : ℕ, b1 < 4 → n1 < 128 → b2 < 4 → n2 < 128 →
      (b1, n1) ≠ (b2, n2) → bank_filename b1 n1 ≠ bank_filename b2 n2 := by
  have key : ∀ b, b < 4 → ∀ n, n < 128 →
      parseTrack (bank_filename b n) = track_number_for b n := by decide
  intro b1 n1 b2 n2 hb1 hn1 hb2 hn2 hne heq
  have h1 := key b1 hb1 n1 hn1
  have h2 := key b2 hb2 n2 hn2
  rw [heq, h2] at h1
  unfold track_number_for at h1
  have hb : b1 = b2 := by omega
  have hn : n1 = n2 := by omega
  exact hne (by rw [hb, hn])

theorem filenames_distinct_witness :
    bank_filename 0 0 ≠ bank_filename 0 1 :=
  filenames_distinct 0 0 0 1 (by decide) (by decide) (by decide) (by decide) (by decide)

/-- C3: every sample of every buffer `generate_waveform` produces under the
default configuration is bounded in magnitude by the master gain (0.3), and
after the final clamp lies in `[-1, 1]`. -/
theorem generated_buffer_bounds :
    ∀ name ∈ WAVEFORMS_IN_BANK_ORDER, ∀ (midi_note : ℤ) (buf : ℕ → ℝ),
      generate_waveform name midi_note SAMPLE_RATE DURATION_SECONDS = some buf →
      ∀ i, |buf i| ≤ ((MASTER_GAIN : ℚ) : ℝ) ∧ -1 ≤ buf i ∧ buf i ≤ 1 := by
  intro name _hname midi_note buf hbuf i
  obtain ⟨g, hg, rfl⟩ := generate_waveform_some _ _ _ _ _ hbuf
  exact gw_buffer_bounds g (generators_bounded name g hg) midi_note
    SAMPLE_RATE DURATION_SECONDS i

theorem generated_buffer_bounds_witness :
    |gw_buffer gen_sine 69 SAMPLE_RATE DURATION_SECONDS 0| ≤ ((MASTER_GAIN : ℚ) : ℝ) ∧
      -1 ≤ gw_buffer gen_sine 69 SAMPLE_RATE DURATION_SECONDS 0 ∧
      gw_buffer gen_sine 69 SAMPLE_RATE DURATION_SECONDS 0 ≤ 1 :=
  generated_buffer_bounds "sine" (by decide) 69
    (gw_buffer gen_sine 69 SAMPLE_RATE DURATION_SECONDS) rfl 0

/-- C4: under the default configuration the fade envelope consists of
441-point linear ramps (`max(1, floor(44100 * 0.01))`) at both ends with
full amplitude in between; consequently the first and last samples of every
generated buffer are exactly 0 and the midpoint sample is the raw generator
value scaled only by the master gain (the envelope there is 1). -/
theorem fade_envelope_shape :
    ∀ name ∈ WAVEFORMS_IN_BANK_ORDER, ∀ (midi_note : ℤ) (buf : ℕ → ℝ),
      generate_waveform name midi_note SAMPLE_RATE DURATION_SECONDS = some buf →
      fade_len (numSamples SAMPLE_RATE DURATION_SECONDS) (1 / 100) = 441 ∧
      (∀ i, i < 441 → simple_fade_envelope 44100 (1 / 100) i = (i : ℚ) / 440) ∧
      (∀ i, 441 ≤ i → i < 43659 → simple_fade_envelope 44100 (1 / 100) i = 1) ∧
      (∀ i, 43659 ≤ i → i < 44100 →
        simple_fade_envelope 44100 (1 / 100) i = 1 - ((i : ℚ) - 43659) / 440) ∧
      buf 0 = 0 ∧
      buf 44099 = 0 ∧
      simple_fade_envelope 44100 (1 / 100) 22050 = 1 ∧
      (∃ g, WAVEFORM_GENERATORS name = some g ∧
        buf 22050 =
          g (2 * Real.pi * midi_note_to_frequency midi_note *
              (((22050 : ℕ) : ℝ) / ((SAMPLE_RATE : ℕ) : ℝ)))
            (midi_note_to_frequency midi_note) * ((MASTER_GAIN : ℚ) : ℝ)) := by
  intro name hname midi_note buf hbuf
  obtain ⟨g, hg, rfl⟩ := generate_waveform_some _ _ _ _ _ hbuf
  have hns : numSamples SAMPLE_RATE DURATION_SECONDS = 44100 := numSamples_default
  refine ⟨by rw [hns]; exact fade_len_default, env_default_ramp_in,
    env_default_mid, env_default_ramp_out, ?_, ?_,
    env_default_mid 22050 (by norm_num) (by norm_num), ⟨g, hg, ?_⟩⟩
  · rw [gw_buffer_eq, hns]
    have he0 : simple_fade_envelope 44100 (1 / 100) 0 = 0 := by
      rw [env_default_ramp_in 0 (by norm_num)]
      norm_num
    rw [he0]
    have hz : g (2 * Real.pi * midi_note_to_frequency midi_note *
          (((0 : ℕ) : ℝ) / ((SAMPLE_RATE : ℕ) : ℝ))) (midi_note_to_frequency midi_note) *
        (((0 : ℚ)) : ℝ) * ((MASTER_GAIN : ℚ) : ℝ) = 0 := by
      push_cast
      ring
    rw [hz, clip_eq_self (by norm_num) (by norm_num)]
  · rw [gw_buffer_eq, hns]
    have he1 : simple_fade_envelope 44100 (1 / 100) 44099 = 0 := by
      rw [env_default_ramp_out 44099 (by norm_num) (by norm_num)]
      push_cast
      norm_num
    rw [he1]
    have hz : g (2 * Real.pi * midi_note_to_frequency midi_note *
          (((44099 : ℕ) : ℝ) / ((SAMPLE_RATE : ℕ) : ℝ))) (midi_note_to_frequency midi_note) *
        (((0 : ℚ)) : ℝ) * ((MASTER_GAIN : ℚ) : ℝ) = 0 := by
      push_cast
      ring
    rw [hz, clip_eq_self (by norm_num) (by norm_num)]
  · rw [gw_buffer_eq, hns]
    rw [env_default_mid 22050 (by norm_num) (by norm_num)]
    rw [Rat.cast_one, mul_one]
    have hr := generators_bounded name g hg
      (2 * Real.pi * midi_note_to_frequency midi_note *
        (((22050 : ℕ) : ℝ) / ((SAMPLE_RATE : ℕ) : ℝ)))
      (midi_note_to_frequency midi_note)
    have hgain := master_gain_mem
    apply clip_eq_self <;> nlinarith [hr.1, hr.2, hgain.1, hgain.2]

theorem fade_envelope_shape_witness :
    gw_buffer gen_sine 69 SAMPLE_RATE DURATION_SECONDS 0 = 0 :=
  (fade_envelope_shape "sine" (by decide) 69
    (gw_buffer gen_sine 69 SAMPLE_RATE DURATION_SECONDS) rfl).2.2.2.2.1

lemma optList_map_some {α β : Type} (l : List α) (f : α → Option β) (g : α → β)
    (h : ∀ a ∈ l, f a = some (g a)) : optList (l.map f) = some (l.map g) := by
  induction l with
  | nil => rfl
  | cons x xs ih =>
      have hx := h x (List.mem_cons_self x xs)
      have ihx := ih (fun a ha => h a (List.mem_cons_of_mem x ha))
      rw [List.map_cons, hx]
      show (optList (xs.map f)).map (fun l => g x :: l) = some ((x :: xs).map g)
      rw [ihx, List.map_cons]
      rfl

lemma enum_banks : WAVEFORMS_IN_BANK_ORDER.enum =
    [((0 : ℕ), "sine"), (1, "triangle"), (2, "saw"), (3, "square")] := rfl

lemma generate_bank_eq (bank_index : ℕ) (waveform_name : String) (g : ℝ → ℝ → ℝ)
    (hg : WAVEFORM_GENERATORS waveform_name = some g) :
    generate_bank bank_index waveform_name =
      some ((List.range 128).map (written_file bank_index waveform_name)) := by
  rw [generate_bank]
  apply optList_map_some
  intro n _hn
  rw [generate_waveform, hg, Option.map_some']
  simp only [written_file, hg, Option.getD_some, Option.map_some']

lemma main_files_eq : main_files = some main_files_list := by
  have hall : ∀ p ∈ WAVEFORMS_IN_BANK_ORDER.enum,
      generate_bank p.1 p.2 =
        some ((List.range 128).map (written_file p.1 p.2)) := by
    rw [enum_banks]
    intro p hp
    fin_cases hp
    · exact generate_bank_eq 0 "sine" gen_sine rfl
    · exact generate_bank_eq 1 "triangle" gen_triangle rfl
    · exact generate_bank_eq 2 "saw" gen_saw rfl
    · exact generate_bank_eq 3 "square" gen_square rfl
  rw [main_files,
    optList_map_some _ _ (fun p => (List.range 128).map (written_file p.1 p.2)) hall,
    Option.map_some']
  rfl

lemma filter_bank (b b2 : ℕ) (name : String) (l : List ℕ) :
    ((l.map (written_file b name)).filter (fun wf => wf.bank == b2)).length =
      if b = b2 then l.length else 0 := by
  induction l with
  | nil => simp
  | cons x xs ih =>
      simp only [List.map_cons, List.filter_cons]
      by_cases hbb : b = b2
      · rw [if_pos hbb] at ih ⊢
        have hc : ((written_file b name x).bank == b2) = true := by
          simp [written_file, hbb]
        rw [if_pos hc]
        simp [ih]
      · rw [if_neg hbb] at ih ⊢
        have hc : ¬(((written_file b name x).bank == b2) = true) := by
          simp [written_file, hbb]
        rw [if_neg hc]
        exact ih

lemma main_files_list_eq : main_files_list =
    (List.range 128).map (written_file 0 "sine") ++
      ((List.range 128).map (written_file 1 "triangle") ++
        ((List.range 128).map (written_file 2 "saw") ++
          ((List.range 128).map (written_file 3 "square") ++ []))) := rfl

/-- C9: under the default configuration the run writes exactly one file per
(bank, MIDI note) combination — 128 per bank, 512 in total — and every file
is a mono buffer of exactly `int(sample_rate * duration) = 44100` samples
serialized with the 16-bit PCM subtype. -/
theorem default_run_output :
    main_files = some main_files_list ∧
    main_files_list.length = 512 ∧
    (∀ b, b < 4 → (main_files_list.filter (fun wf => wf.bank == b)).length = 128) ∧
    (∀ wf ∈ main_files_list,
      wf.num_samples = 44100 ∧ wf.channels = 1 ∧ wf.subtype = "PCM_16") := by
  refine ⟨main_files_eq, ?_, ?_, ?_⟩
  · rw [main_files_list_eq]
    simp [List.length_append, List.length_map, List.length_range]
  · intro b hb
    rw [main_files_list_eq]
    simp only [List.filter_append, List.length_append, List.filter_nil, List.length_nil]
    rw [filter_bank 0 b "sine", filter_bank 1 b "triangle", filter_bank 2 b "saw",
      filter_bank 3 b "square"]
    simp only [List.length_range]
    interval_cases b <;> norm_num
  · intro wf hwf
    rw [main_files_list_eq] at hwf
    simp only [List.append_nil, List.mem_append, List.mem_map, List.mem_range] at hwf
    rcases hwf with ⟨n, _, rfl⟩ | ⟨n, _, rfl⟩ | ⟨n, _, rfl⟩ | ⟨n, _, rfl⟩ <;>
      exact ⟨numSamples_default, rfl, rfl⟩

theorem default_run_output_witness :
    (main_files_list.filter (fun wf => wf.bank == 0)).length = 128 :=
  default_run_output.2.2.1 0 (by norm_num)

end Tsunami

